import Mathlib

/-!
# Verification of the folder-to-single-file combiner

Shallow embedding of the repository (three Python variants of a directory
combiner: the top-level `src/combine_files.py`, `src/src/combine_files.py`,
and `src/lib/combine_files.py`) together with proofs about the frozen
claims.  Bytes are modelled as `Nat` (values `0..255`), decoded text as a
list of Unicode code points (`Nat`).
-/

/-! ## Byte-level text decoding (the Classifier's encoding chain)

Models Python `bytes.decode` for the encodings tried by
`read_file_content`: `utf-8`, `utf-8-sig`, `ascii`, `latin1`, and the
final `utf-8` with `errors='replace'` fallback. -/

/-- A UTF-8 continuation byte: `0x80 ≤ b ≤ 0xBF`. -/
def isCont (b : Nat) : Bool := 0x80 ≤ b && b ≤ 0xBF

/-- Allowed second byte of a 3-byte sequence, given the lead byte
(excludes overlong forms for `0xE0` and surrogates for `0xED`). -/
def cont3OK (lead b : Nat) : Bool :=
  if lead = 0xE0 then 0xA0 ≤ b && b ≤ 0xBF
  else if lead = 0xED then 0x80 ≤ b && b ≤ 0x9F
  else isCont b

/-- Allowed second byte of a 4-byte sequence, given the lead byte
(excludes overlong forms for `0xF0` and values above `U+10FFFF` for `0xF4`). -/
def cont4OK (lead b : Nat) : Bool :=
  if lead = 0xF0 then 0x90 ≤ b && b ≤ 0xBF
  else if lead = 0xF4 then 0x80 ≤ b && b ≤ 0x8F
  else isCont b

mutual
/-- Strict UTF-8 decoding of a byte list into code points; `none` models a
Python `UnicodeDecodeError` (as raised by `bytes.decode('utf-8')`).  Lead
bytes dispatch on their class; the continuation bytes of 2-, 3- and
4-byte sequences are checked by the helpers below. -/
def utf8Decode : List Nat → Option (List Nat)
  | [] => some []
  | b :: rest =>
    if b < 0x80 then (utf8Decode rest).map (b :: ·)
    else if b < 0xC2 then none
    else if b < 0xE0 then utf8Cont1 b rest
    else if b < 0xF0 then utf8Cont2 b rest
    else if b < 0xF5 then utf8Cont3 b rest
    else none
termination_by structural l => l

/-- One continuation byte after lead `b` (2-byte sequence). -/
def utf8Cont1 (b : Nat) : List Nat → Option (List Nat)
  | b1 :: r =>
    if isCont b1 then (utf8Decode r).map (((b - 0xC0) * 0x40 + (b1 - 0x80)) :: ·)
    else none
  | [] => none
termination_by structural l => l

/-- Two continuation bytes after lead `b` (3-byte sequence). -/
def utf8Cont2 (b : Nat) : List Nat → Option (List Nat)
  | b1 :: b2 :: r =>
    if cont3OK b b1 && isCont b2 then
      (utf8Decode r).map
        (((b - 0xE0) * 0x1000 + (b1 - 0x80) * 0x40 + (b2 - 0x80)) :: ·)
    else none
  | _ => none
termination_by structural l => l

/-- Three continuation bytes after lead `b` (4-byte sequence). -/
def utf8Cont3 (b : Nat) : List Nat → Option (List Nat)
  | b1 :: b2 :: b3 :: r =>
    if cont4OK b b1 && isCont b2 && isCont b3 then
      (utf8Decode r).map
        (((b - 0xF0) * 0x40000 + (b1 - 0x80) * 0x1000 +
          (b2 - 0x80) * 0x40 + (b3 - 0x80)) :: ·)
    else none
  | _ => none
termination_by structural l => l
end

/-- Python's `utf-8-sig` codec: strip a leading byte-order mark if present,
then decode as strict UTF-8. -/
def utf8SigDecode (bs : List Nat) : Option (List Nat) :=
  if bs.take 3 = [0xEF, 0xBB, 0xBF] then utf8Decode (bs.drop 3) else utf8Decode bs

/-- Python's `ascii` codec: succeeds iff every byte is below `0x80`,
mapping each byte to the same code point. -/
def asciiDecode (bs : List Nat) : Option (List Nat) :=
  if bs.all (· < 0x80) then some bs else none

/-- Python's `latin1` codec: total; byte `b` maps to code point `b`. -/
def latin1Decode (bs : List Nat) : Option (List Nat) :=
  some bs

/-- Python's `utf-8` decoding with `errors='replace'`: invalid bytes are
replaced by `U+FFFD`.  (In `read_file_content` this branch is dead code:
`latin1` never fails, which is proved below.) -/
def utf8Replace : List Nat → List Nat
  | [] => []
  | b :: rest =>
    if b < 0x80 then b :: utf8Replace rest
    else if b < 0xC2 then 0xFFFD :: utf8Replace rest
    else if b < 0xE0 then
      match rest with
      | b1 :: r =>
        if isCont b1 then ((b - 0xC0) * 0x40 + (b1 - 0x80)) :: utf8Replace r
        else 0xFFFD :: utf8Replace (b1 :: r)
      | [] => [0xFFFD]
    else if b < 0xF0 then
      match rest with
      | b1 :: b2 :: r =>
        if cont3OK b b1 && isCont b2 then
          ((b - 0xE0) * 0x1000 + (b1 - 0x80) * 0x40 + (b2 - 0x80)) :: utf8Replace r
        else 0xFFFD :: utf8Replace (b1 :: b2 :: r)
      | [b1] => 0xFFFD :: utf8Replace [b1]
      | [] => [0xFFFD]
    else if b < 0xF5 then
      match rest with
      | b1 :: b2 :: b3 :: r =>
        if cont4OK b b1 && isCont b2 && isCont b3 then
          ((b - 0xF0) * 0x40000 + (b1 - 0x80) * 0x1000 +
            (b2 - 0x80) * 0x40 + (b3 - 0x80)) :: utf8Replace r
        else 0xFFFD :: utf8Replace (b1 :: b2 :: b3 :: r)
      | [b1, b2] => 0xFFFD :: utf8Replace [b1, b2]
      | [b1] => 0xFFFD :: utf8Replace [b1]
      | [] => [0xFFFD]
    else 0xFFFD :: utf8Replace rest
termination_by l => l.length
decreasing_by all_goals (simp [List.length_cons]; try omega)

/-- The encoding chain of `read_file_content`
(`src/combine_files.py` lines 29-36): try
`['utf-8', 'utf-8-sig', 'ascii', 'latin1']` in order and return the first
successful decode; if all fail, decode as UTF-8 with replacement. -/
def decodeChain (bs : List Nat) : List Nat :=
  match utf8Decode bs with
  | some t => t
  | none =>
    match utf8SigDecode bs with
    | some t => t
    | none =>
      match asciiDecode bs with
      | some t => t
      | none =>
        match latin1Decode bs with
        | some t => t
        | none => utf8Replace bs

example : utf8Decode [104, 105] = some [104, 105] := by decide
example : utf8Decode [255] = none := by decide
example : utf8Decode [0xC3, 0xA9] = some [0xE9] := by decide
example : utf8Decode [0xED, 0xA0, 0x80] = none := by decide
example : decodeChain [255, 65] = [255, 65] := by decide
example : utf8SigDecode [0xEF, 0xBB, 0xBF, 65] = some [65] := by decide

/-! ## Filename utilities -/

/-- Python `str.lower()` (adequate for the ASCII extension strings used
by the classifiers). -/
def lowerStr (s : String) : String := ⟨s.data.map Char.toLower⟩

/-- `pathlib.Path(p).suffix`: the extension of the final component,
including the dot; empty when the name has no dot, starts with its only
dot, or ends with the dot (CPython: the last `.` at index `i` counts iff
`0 < i < len(name) - 1`). -/
def pySuffix (name : String) : String :=
  let l := name.data
  match l.reverse.findIdx? (· = '.') with
  | none => ""
  | some k =>
    let i := l.length - 1 - k
    if 0 < i ∧ i < l.length - 1 then ⟨l.drop i⟩ else ""

/-- Python's substring test `pat in s`, on char lists: the pattern is a
contiguous run starting at some position. -/
def pyInData (pat : List Char) : List Char → Bool
  | [] => pat.isEmpty
  | c :: t => pat.isPrefixOf (c :: t) || pyInData pat t

/-- Python's substring test `pat in s`. -/
def pyIn (pat s : String) : Bool := pyInData pat.data s.data

/-- Python's `s.endswith(ext)`, on the characters. -/
def pyEndsWith (s ext : String) : Bool := ext.data.reverse.isPrefixOf s.data.reverse

/-- Python string comparison `a <= b`: lexicographic on code points. -/
def strLeData : List Char → List Char → Bool
  | [], _ => true
  | _ :: _, [] => false
  | a :: as, b :: bs =>
    if a.toNat < b.toNat then true
    else if b.toNat < a.toNat then false
    else strLeData as bs

/-- Python string comparison `a <= b`. -/
def pyStrLe (a b : String) : Bool := strLeData a.data b.data

/-- `any(pattern in name for pattern in patterns)`. -/
def nameExcluded (patterns : List String) (n : String) : Bool :=
  patterns.any (fun p => pyIn p n)

example : pySuffix "a.TXT" = ".TXT" := by decide
example : pySuffix ".gitignore" = "" := by decide
example : pySuffix "a." = "" := by decide
example : pySuffix "archive.tar.gz" = ".gz" := by decide
example : lowerStr (pySuffix "a.TXT") = ".txt" := by decide
example : pyIn "env" "environment.json" = true := by decide
example : pyIn ".pyc" "a.py" = false := by decide

/-! ## File model

A file is its name, its `os.path.getsize` result, and the byte content
the OS delivers on `open` — or an OS-level read failure (permission
denied, I/O error), which makes every read of the file fail. -/

/-- What the OS delivers when the file is opened and read: its bytes, or
a failure (permission denied, I/O error) that makes every read fail. -/
inductive ReadResult where
  | bytes (bs : List Nat)
  | err (msg : String)
deriving DecidableEq

structure FileEnt where
  name : String
  size : Nat
  content : ReadResult
deriving DecidableEq

/-! ## Classifier: binary detection -/

/-- Extension allow-list of `is_binary` in `src/combine_files.py`
(lines 4-9) and `src/lib/combine_files.py` (lines 29-34), identical. -/
def codeExtensions : List String :=
  [".swift", ".h", ".m", ".c", ".cpp", ".hpp", ".java", ".kt",
   ".py", ".sh", ".bash", ".js", ".jsx", ".ts", ".tsx", ".html",
   ".css", ".scss", ".sass", ".md", ".txt", ".json", ".xml",
   ".yaml", ".yml", ".properties", ".config", ".plist"]

/-- Extension allow-list of `is_binary` in `src/src/combine_files.py`
(lines 13-18). -/
def textExtensionsSS : List String :=
  [".txt", ".md", ".swift", ".py", ".js", ".json", ".xml",
   ".yaml", ".yml", ".sh", ".bash", ".zsh", ".html", ".css",
   ".h", ".m", ".c", ".cpp", ".java", ".kt", ".rs", ".go",
   ".rb", ".php", ".pl", ".conf", ".cfg", ".ini"]

/-- `is_binary` of `src/combine_files.py` (lines 1-21; the method in
`src/lib/combine_files.py` lines 26-46 is identical): allow-listed
extensions are never binary; otherwise sniff the first 1024 bytes for a
null byte; an unreadable file counts as binary. -/
def is_binary (f : FileEnt) : Bool :=
  if lowerStr (pySuffix f.name) ∈ codeExtensions then false
  else
    match f.content with
    | .err _ => true
    | .bytes bs => (bs.take 1024).contains 0

/-- `is_binary` of `src/src/combine_files.py` (lines 10-29): matches by
`file_path.lower().endswith(ext)` (equivalent on the basename, since no
extension contains a path separator); otherwise the same null-byte sniff,
with unreadable files counted as binary. -/
def is_binary_ss (f : FileEnt) : Bool :=
  if textExtensionsSS.any (fun ext => pyEndsWith (lowerStr f.name) ext) then false
  else
    match f.content with
    | .err _ => true
    | .bytes bs => (bs.take 1024).contains 0

/-! ## Classifier: reading and per-file outcome -/

/-- `read_file_content` of `src/combine_files.py` (lines 23-38): read all
bytes (re-raising an OS failure) and decode through the encoding chain. -/
inductive ReadOutcome where
  | text (t : List Nat)
  | ioError (msg : String)
deriving DecidableEq

def read_file_content (f : FileEnt) : ReadOutcome :=
  match f.content with
  | .err e => .ioError ("Failed to read: " ++ e)
  | .bytes bs => .text (decodeChain bs)

/-- `FileProcessor.read_file_content` of `src/lib/combine_files.py`
(lines 48-65): same encoding chain (here via text-mode `open`; the
universal-newline translation is not modelled, contents without carriage
returns are unaffected), but an OS failure is logged and returned as
`None`. -/
def read_file_content_lib (f : FileEnt) : Option (List Nat) :=
  match f.content with
  | .err _ => none
  | .bytes bs => some (decodeChain bs)

/-- Per-file outcome of the combiner loop in `src/combine_files.py`. -/
inductive FileOutcome where
  | skippedPattern
  | tooLarge
  | included (text : List Nat)
  | readError (msg : String)
  | skippedBinary
deriving DecidableEq

/-- The body of the file loop in `src/combine_files.py` (lines 71-98):
name exclusion, then the size ceiling (`max_size_mb * 1024 * 1024`), then
write a block iff the extension is `.swift` or the file is non-binary
with an extension in `force_text_extensions`; otherwise report a binary
skip.  `force_text_extensions` is the line-46 set. -/
def procFile (patterns : List String) (maxSizeMB : Nat) (f : FileEnt) : FileOutcome :=
  let force_text_extensions : List String := [".swift", ".md", ".txt", ".json", ".yaml", ".yml"]
  if nameExcluded patterns f.name then .skippedPattern
  else if f.size > maxSizeMB * 1024 * 1024 then .tooLarge
  else
    let file_ext := lowerStr (pySuffix f.name)
    if file_ext = ".swift" ∨ (¬ is_binary f = true ∧ file_ext ∈ force_text_extensions) then
      match read_file_content f with
      | .text t => .included t
      | .ioError e => .readError e
    else .skippedBinary

/-- The body of the file loop in `src/src/combine_files.py`
(lines 83-110): name exclusion, size ceiling, `is_binary` skip, then a
plain `open(..., encoding='utf-8')` read whose `UnicodeDecodeError` or
`IOError` is reported as an error.  (Text mode's universal-newline
translation is not modelled; contents without carriage returns are
unaffected.) -/
def procFileSS (patterns : List String) (maxSizeMB : Nat) (f : FileEnt) : FileOutcome :=
  if nameExcluded patterns f.name then .skippedPattern
  else if f.size > maxSizeMB * 1024 * 1024 then .tooLarge
  else if is_binary_ss f then .skippedBinary
  else
    match f.content with
    | .err e => .readError e
    | .bytes bs =>
      match utf8Decode bs with
      | some t => .included t
      | none => .readError "UnicodeDecodeError"

/-- Per-file outcome of `FileCombiner.combine_files` in
`src/lib/combine_files.py`. -/
inductive LibOutcome where
  | skippedPattern
  | tooLarge
  | included (text : List Nat)
  | readErrorLogged
  | emptyNoBlock
  | skippedBinary
deriving DecidableEq

/-- The body of the file loop in `src/lib/combine_files.py`
(lines 145-170): name exclusion, size ceiling, then write a block iff the
extension is `.swift` or the file is non-binary, the read succeeds, and
the decoded text is truthy (the walrus `if content := ...` drops empty
files silently). -/
def procFileLib (patterns : List String) (maxSizeMB : Nat) (f : FileEnt) : LibOutcome :=
  if nameExcluded patterns f.name then .skippedPattern
  else if f.size > maxSizeMB * 1024 * 1024 then .tooLarge
  else
    let file_ext := lowerStr (pySuffix f.name)
    if file_ext = ".swift" ∨ ¬ is_binary f = true then
      match read_file_content_lib f with
      | some t => if t = [] then .emptyNoBlock else .included t
      | none => .readErrorLogged
    else .skippedBinary

/-- Default exclusion patterns of `src/combine_files.py` (line 43). -/
def defaultExcludes : List String :=
  [".git", "__pycache__", ".pyc", ".class", ".o", ".DS_Store"]

/-- Default exclusion patterns of `src/src/combine_files.py`
(lines 54-58 and 150-154). -/
def defaultExcludesSS : List String :=
  [".git", ".gitignore", ".DS_Store", "__pycache__",
   "node_modules", "venv", "env", ".env", "combined_files.txt"]

/-- What the loop of `src/combine_files.py` prints for one file
(lines 80-98): size and binary skips only when not quiet, errors always. -/
inductive Notice where
  | tooLargeSkip (name : String)
  | binarySkip (name : String)
  | procError (name : String) (msg : String)
deriving DecidableEq

/-- Notices printed for a single file outcome by `src/combine_files.py`;
the `readError` notice is emitted regardless of `quiet` (line 95,
comment "Always show errors"). -/
def noticesOf (quiet : Bool) (name : String) : FileOutcome → List Notice
  | .skippedPattern => []
  | .tooLarge => if quiet then [] else [.tooLargeSkip name]
  | .included _ => []
  | .readError e => [.procError name e]
  | .skippedBinary => if quiet then [] else [.binarySkip name]

example : procFile defaultExcludes 10 ⟨"a.py", 1, .bytes [120]⟩ = .skippedBinary := by decide
example : is_binary ⟨"a.py", 1, .bytes [120]⟩ = false := by decide
example : procFileSS defaultExcludesSS 10 ⟨"a.py", 5, .bytes [0, 104, 105]⟩ =
    .included [0, 104, 105] := by decide
example : procFile defaultExcludes 10 ⟨"a.md", 1, .bytes [0, 65]⟩ = .included [0, 65] := by decide

/-! ## Directory model and the `os.walk` traversal

A directory holds named subdirectories and files, plus a readability
flag: `os.scandir` on an unreadable directory raises, and `os.walk`
(whose default `onerror` ignores errors) then yields nothing for that
directory and never descends below it. -/

inductive Dir where
  | mk (readable : Bool) (subdirs : List (String × Dir)) (files : List FileEnt)

def Dir.readable : Dir → Bool
  | .mk r _ _ => r

def Dir.subdirs : Dir → List (String × Dir)
  | .mk _ s _ => s

def Dir.files : Dir → List FileEnt
  | .mk _ _ f => f

/-- `sorted(files)` of the walk loop: files of one directory in
case-sensitive lexicographic name order (Python's stable sort; names
within one directory are distinct). -/
def sortFiles (files : List FileEnt) : List FileEnt :=
  List.insertionSort (fun a b : FileEnt => pyStrLe a.name b.name = true) files

mutual
/-- The files visited by the processing loop of `combine_files`
(`src/combine_files.py` lines 67-75): `os.walk` top-down, with
subdirectories whose name matches an exclusion pattern pruned from
descent (line 69) and files taken in sorted order, each paired with the
path of directory names from the input root.  The name-level file filter
(line 72) is not applied here: it happens per file, before the progress
tick. -/
def walkFiles (patterns : List String) : Dir → List String → List (List String × FileEnt)
  | .mk rd subs files, rel =>
    if rd then
      (sortFiles files).map (fun f => (rel, f)) ++ walkSubs patterns subs rel
    else []
termination_by structural d => d

/-- Descend into the subdirectories in listing order; the line-69 pruning
`dirs[:] = [d for d in dirs if not any(pattern in d ...)]` is applied to
each entry as it is reached. -/
def walkSubs (patterns : List String) : List (String × Dir) → List String → List (List String × FileEnt)
  | [], _ => []
  | (nm, sub) :: t, rel =>
    (if nameExcluded patterns nm then [] else walkFiles patterns sub (rel ++ [nm])) ++
      walkSubs patterns t rel
termination_by structural l => l
end

mutual
/-- The pre-scan `total_files` of `src/combine_files.py` (lines 55-57):
a full `os.walk` with **no** directory pruning, counting the files that
pass the name filter. -/
def countFiles (patterns : List String) : Dir → Nat
  | .mk rd subs files =>
    if rd then
      (files.filter (fun f => !nameExcluded patterns f.name)).length + countSubs patterns subs
    else 0
termination_by structural d => d

def countSubs (patterns : List String) : List (String × Dir) → Nat
  | [] => 0
  | (_, sub) :: t => countFiles patterns sub + countSubs patterns t
termination_by structural l => l
end

/-- The files that reach the progress tick (`processed_files += 1`,
line 76): visited files that pass the name filter, in processing order. -/
def processedSrc (patterns : List String) (d : Dir) : List (List String × FileEnt) :=
  (walkFiles patterns d []).filter (fun p => !nameExcluded patterns p.2.name)

/-- A content block of the output document: the directory path from the
input root, the file name, and the decoded text. -/
structure Block where
  dirs : List String
  fname : String
  text : List Nat
deriving DecidableEq

/-- The blocks written by the loop of `src/combine_files.py`: one per
visited file whose outcome is `included`. -/
def blocksSrc (patterns : List String) (maxSizeMB : Nat) (d : Dir) : List Block :=
  (walkFiles patterns d []).filterMap (fun p =>
    match procFile patterns maxSizeMB p.2 with
    | .included t => some ⟨p.1, p.2.name, t⟩
    | _ => none)

example :
    walkFiles [".git"] (.mk true [(".git", .mk true [] [⟨"cfg", 1, .bytes [65]⟩])]
      [⟨"b.txt", 1, .bytes [66]⟩, ⟨"a.txt", 1, .bytes [65]⟩]) [] =
    [([], ⟨"a.txt", 1, .bytes [65]⟩), ([], ⟨"b.txt", 1, .bytes [66]⟩)] := by decide
example : countFiles [".git"] (.mk true [(".git", .mk true [] [⟨"cfg", 1, .bytes [65]⟩])]
      [⟨"b.txt", 1, .bytes [66]⟩]) = 2 := by decide

/-! ## Tree Lister (`get_file_tree` / `add_to_tree` of
`src/src/combine_files.py` lines 31-49; the method in
`src/lib/combine_files.py` lines 67-85 is identical) -/

/-- Python's `s.startswith(p)`. -/
def pyStartsWith (s p : String) : Bool := p.data.isPrefixOf s.data

/-- One `os.scandir` entry: a file or a directory with its subtree. -/
inductive Ent where
  | file (name : String)
  | dir (name : String) (sub : Dir)

def Ent.name : Ent → String
  | .file n => n
  | .dir n _ => n

/-- `DirEntry.is_file()`. -/
def Ent.isFile : Ent → Bool
  | .file _ => true
  | .dir _ _ => false

/-- The raw `os.scandir` listing of a directory.  The OS returns entries
in unspecified order; the model lists subdirectories first, then files
(the code sorts the listing immediately, so only the sort's stable order
matters). -/
def rawEnts (d : Dir) : List Ent :=
  d.subdirs.map (fun p => Ent.dir p.1 p.2) ++ d.files.map (fun f => Ent.file f.name)

/-- The sort key comparison of line 36,
`key=lambda e: (not e.is_file(), e.name)`: lexicographic on the pair
(`not is_file`, name) with `False < True`, so files order before
directories. -/
def entLE (a b : Ent) : Bool :=
  if (!a.isFile) = (!b.isFile) then pyStrLe a.name b.name
  else !(!a.isFile) && !b.isFile

/-- `sorted(os.scandir(path), key=lambda e: (not e.is_file(), e.name))`
(Python's sort is stable; modelled by stable insertion sort). -/
def sortEnts (l : List Ent) : List Ent :=
  List.insertionSort (fun a b => entLE a b = true) l

/-- Line 36-37: the sorted listing with entries whose name starts with
`'.'` removed. -/
def visEnts (d : Dir) : List Ent :=
  (sortEnts (rawEnts d)).filter (fun e => !pyStartsWith e.name ".")

theorem sizeOf_lt_of_mem_visEnts {d : Dir} {nm : String} {sub : Dir}
    (h : Ent.dir nm sub ∈ visEnts d) : sizeOf sub < sizeOf d := by
  have h1 : Ent.dir nm sub ∈ sortEnts (rawEnts d) := (List.mem_filter.mp h).1
  have h2 : Ent.dir nm sub ∈ rawEnts d :=
    ((List.perm_insertionSort _ _).mem_iff).mp h1
  rcases List.mem_append.mp h2 with h3 | h3
  · rcases List.mem_map.mp h3 with ⟨p, hp, he⟩
    cases p with
    | mk n s =>
      cases he
      have h4 : sizeOf (n, s) < sizeOf d.subdirs := List.sizeOf_lt_of_mem hp
      cases d with
      | mk rd subs files =>
        simp only [Dir.subdirs] at h4
        simp only [Prod.mk.sizeOf_spec] at h4
        simp only [Dir.mk.sizeOf_spec]
        omega
  · rcases List.mem_map.mp h3 with ⟨f, _, he⟩
    cases he

mutual
/-- `add_to_tree(path, prefix)` (lines 35-46): for each visible entry, a
line `prefix + branch + name`, recursing into directories with the
extended prefix.  Readability is handled separately by `dirTreeOk`
(Python raises out of `get_file_tree`; this renderer gives the lines
produced when no directory is unreadable). -/
def addToTree (d : Dir) (pre : String) : List String :=
  goEnts d (visEnts d).attach pre
termination_by (sizeOf d, (visEnts d).attach.length + 1)
decreasing_by
  exact Prod.Lex.right _ (Nat.lt_succ_self _)

/-- The entry loop of `add_to_tree`: `l` is the remaining part of the
visible-entry list (so the last entry of `l` is the last of the
directory), each entry carrying its membership for termination. -/
def goEnts (d : Dir) (l : List {e : Ent // e ∈ visEnts d}) (pre : String) : List String :=
  match l with
  | [] => []
  | ⟨e, he⟩ :: rest =>
    (pre ++ (if rest.isEmpty then "└── " else "├── ") ++ e.name) ::
      ((match e, he with
        | .dir _ sub, hm =>
          addToTree sub (pre ++ (if rest.isEmpty then "    " else "│   "))
        | .file _, _ => []) ++
        goEnts d rest pre)
termination_by (sizeOf d, l.length)
decreasing_by
  · exact Prod.Lex.left _ _ (sizeOf_lt_of_mem_visEnts hm)
  · exact Prod.Lex.right _ (by simp [List.length_cons])
end

mutual
/-- Whether `get_file_tree` completes without an exception: `os.scandir`
raises on an unreadable directory, and `add_to_tree` recurses into every
visible (non-hidden) subdirectory. -/
def dirTreeOk : Dir → Bool
  | .mk rd subs _ => rd && subsTreeOk subs
termination_by structural d => d

def subsTreeOk : List (String × Dir) → Bool
  | [] => true
  | (nm, sub) :: t => (pyStartsWith nm "." || dirTreeOk sub) && subsTreeOk t
termination_by structural l => l
end

/-- Python's `sep.join(parts)`. -/
def pyJoin (sep : String) : List String → String
  | [] => ""
  | [a] => a
  | a :: b :: rest => a ++ sep ++ pyJoin sep (b :: rest)

/-- `get_file_tree(directory)` (lines 31-49): the header line carrying
the `datetime.now()` timestamp `ts` (it contains a trailing newline as
element 0 of the list), joined with the `add_to_tree` lines by
newlines. -/
def get_file_tree (ts : String) (d : Dir) : String :=
  pyJoin "\n" (("# File Tree - Generated on " ++ ts ++ "\n") :: addToTree d "")

/-! ## Output assembly -/

/-- Code points to a Lean string (every code point produced by the
decoders is a valid scalar value). -/
def cpStr (l : List Nat) : String := ⟨l.map Char.ofNat⟩

/-- `os.path.relpath(file_path, input_dir)`: the path components below
the input root joined by the separator. -/
def relPath (dirs : List String) (fname : String) : String :=
  pyJoin "/" (dirs ++ [fname])

/-- One output block (lines 92-93): `"\n\n### File: " + relative_path +
"\n"` followed by the decoded content. -/
def blockStr (b : Block) : String :=
  "\n\n### File: " ++ relPath b.dirs b.fname ++ "\n" ++ cpStr b.text

/-- Result of one run of a `combine_files` variant: the text written to
the output file, or a crash (an exception such as the `os.scandir`
failure inside `get_file_tree` escaping `combine_files`, which has no
try/except). -/
inductive RunOut where
  | ok (output : String)
  | crashed
deriving DecidableEq

/-- `combine_files` of `src/combine_files.py` (lines 40-101): writes the
tree header (raising if a directory is unreadable), the section marker,
then one block per included file.  The top-level file defines no
`get_file_tree` of its own; it uses the one of the sibling variants
(`src/src/combine_files.py` lines 31-49), modelled above.  `quiet` only
affects stdout notices, never the output file, so it is not a parameter
here. -/
def combineSrcOut (patterns : List String) (maxSizeMB : Nat) (noTree : Bool)
    (ts : String) (d : Dir) : RunOut :=
  let body := String.join ((blocksSrc patterns maxSizeMB d).map blockStr)
  if noTree then .ok body
  else if dirTreeOk d then
    .ok (get_file_tree ts d ++ "\n\n# Combined Files Content\n" ++ body)
  else .crashed

/-- The blocks written by the loop of `src/src/combine_files.py`. -/
def blocksSS (patterns : List String) (maxSizeMB : Nat) (d : Dir) : List Block :=
  (walkFiles patterns d []).filterMap (fun p =>
    match procFileSS patterns maxSizeMB p.2 with
    | .included t => some ⟨p.1, p.2.name, t⟩
    | _ => none)

/-- `combine_files` of `src/src/combine_files.py` (lines 51-113): same
output structure as the top-level variant, with its own per-file logic. -/
def combineSSOut (patterns : List String) (maxSizeMB : Nat) (noTree : Bool)
    (ts : String) (d : Dir) : RunOut :=
  let body := String.join ((blocksSS patterns maxSizeMB d).map blockStr)
  if noTree then .ok body
  else if dirTreeOk d then
    .ok (get_file_tree ts d ++ "\n\n# Combined Files Content\n" ++ body)
  else .crashed

/-! ## The library combiner (`src/lib/combine_files.py`) and the CLI -/

/-- The state of the input-directory path handed to the tool. -/
inductive InState where
  | missing
  | notDir
  | noPerm
  | present (d : Dir)

/-- The blocks written by the loop of `FileCombiner.combine_files`. -/
def blocksLib (patterns : List String) (maxSizeMB : Nat) (d : Dir) : List Block :=
  (walkFiles patterns d []).filterMap (fun p =>
    match procFileLib patterns maxSizeMB p.2 with
    | .included t => some ⟨p.1, p.2.name, t⟩
    | _ => none)

/-- Observable result of `FileCombiner.combine_files`: the boolean it
returns, whether `open(output_file, 'w')` ran (creating/truncating the
output file), and the text written to it. -/
structure LibRun where
  success : Bool
  outputCreated : Bool
  output : String
deriving DecidableEq

/-- `FileCombiner.combine_files` of `src/lib/combine_files.py`
(lines 111-179).  The whole body is inside `try/except Exception:
return False`.  `outputSetupOk` models `os.makedirs` and
`open(output_file, 'w')` succeeding.  `os.walk` on a missing / non-
directory / unreadable path yields nothing (its default `onerror`
ignores the error), so with the tree disabled such a run still returns
`True`.  `get_file_tree` raises on those paths and on any unreadable
visible subdirectory — after the output file was already opened.
Per-file reads and decodes never raise (`read_file_content` catches
`Exception`; `is_binary` catches `IOError`), so the walk itself never
fails the run. -/
def combineLib (outputSetupOk : Bool) (patterns : List String) (maxSizeMB : Nat)
    (noTree : Bool) (ts : String) (st : InState) : LibRun :=
  if !outputSetupOk then ⟨false, false, ""⟩
  else
    let body : String :=
      match st with
      | .present d => String.join ((blocksLib patterns maxSizeMB d).map blockStr)
      | _ => ""
    if noTree then ⟨true, true, body⟩
    else
      match st with
      | .present d =>
        if dirTreeOk d then
          ⟨true, true, get_file_tree ts d ++ "\n\n# Combined Files Content\n" ++ body⟩
        else ⟨false, true, ""⟩
      | _ => ⟨false, true, ""⟩

/-- The input validation of `main` in `src/src/combine_files.py`
(lines 138-147): `os.path.exists`, `os.path.isdir`, `os.access(..., R_OK)`,
each exiting with its own message. -/
inductive MainOut where
  | exitError (msg : String)
  | ran (r : RunOut)
deriving DecidableEq

/-- `main` of `src/src/combine_files.py` (lines 115-168): validate the
input directory (exiting with a descriptive message before `combine_files`
is called and before any output file is touched), then run the combiner. -/
def mainSS (patterns : List String) (maxSizeMB : Nat) (noTree : Bool)
    (ts : String) (st : InState) : MainOut :=
  match st with
  | .missing => .exitError "Input directory does not exist"
  | .notDir => .exitError "is not a directory"
  | .noPerm => .exitError "No read permission for directory"
  | .present d => .ran (combineSSOut patterns maxSizeMB noTree ts d)

example : dirTreeOk (.mk true [("s", .mk false [] [])] []) = false := by decide
example : dirTreeOk (.mk true [(".h", .mk false [] [])] []) = true := by decide
example : (combineLib true [] 10 true "T" .missing).success = true := by decide
example : (combineLib true [] 10 false "T" .missing).success = false := by decide

/-! ## Supporting lemmas: decoding -/

/-- Pure-ASCII byte lists decode as themselves under strict UTF-8. -/
theorem utf8Decode_of_ascii : ∀ bs : List Nat, (∀ b ∈ bs, b < 0x80) →
    utf8Decode bs = some bs := by
  intro bs
  induction bs with
  | nil => intro _; rfl
  | cons b t ih =>
    intro h
    have hb : b < 0x80 := h b (List.mem_cons_self b t)
    have ht := ih (fun x hx => h x (List.mem_cons_of_mem b hx))
    simp [utf8Decode, hb, ht]

/-- A leading UTF-8 byte-order mark decodes to `U+FEFF` followed by the
decoding of the remainder. -/
theorem utf8Decode_bom (t : List Nat) :
    utf8Decode (0xEF :: 0xBB :: 0xBF :: t) = (utf8Decode t).map (0xFEFF :: ·) := by
  have h1 : utf8Decode (0xEF :: 0xBB :: 0xBF :: t) = utf8Cont2 0xEF (0xBB :: 0xBF :: t) := by
    simp [utf8Decode]
  have hc : (cont3OK 0xEF 0xBB && isCont 0xBF) = true := by decide
  have h2 : utf8Cont2 0xEF (0xBB :: 0xBF :: t) =
      (utf8Decode t).map (((0xEF - 0xE0) * 0x1000 + (0xBB - 0x80) * 0x40 + (0xBF - 0x80)) :: ·) := by
    simp [utf8Cont2, hc]
  rw [h1, h2]

/-- If strict UTF-8 fails, so does ASCII. -/
theorem asciiDecode_none_of_utf8_none {bs : List Nat} (h : utf8Decode bs = none) :
    asciiDecode bs = none := by
  unfold asciiDecode
  by_cases hall : bs.all (fun b => decide (b < 0x80)) = true
  · exfalso
    have : utf8Decode bs = some bs :=
      utf8Decode_of_ascii bs (by
        intro b hb
        have := List.all_eq_true.mp hall b hb
        simpa using this)
    rw [this] at h
    cases h
  · simp [hall]

/-- If strict UTF-8 fails, so does `utf-8-sig`. -/
theorem utf8SigDecode_none_of_utf8_none {bs : List Nat} (h : utf8Decode bs = none) :
    utf8SigDecode bs = none := by
  unfold utf8SigDecode
  by_cases hbom : bs.take 3 = [0xEF, 0xBB, 0xBF]
  · rcases bs with _ | ⟨b0, _ | ⟨b1, _ | ⟨b2, rest⟩⟩⟩ <;> simp [List.take] at hbom
    obtain ⟨h0, h1, h2⟩ := hbom
    subst h0; subst h1; subst h2
    rw [utf8Decode_bom] at h
    simp only [List.take, List.drop, if_pos rfl]
    cases hrest : utf8Decode rest with
    | none => rfl
    | some t => rw [hrest] at h; simp at h
  · simp [hbom, h]

/-! ## Claim C3 -/

/-- C3: for every readable file accepted as text, decoding tries
UTF-8, UTF-8-with-BOM, ASCII, Latin-1 in order and returns the first
success; Latin-1 never fails, so the chain never raises, and a file
whose bytes are invalid UTF-8 is decoded by the fallback list with every
byte preserved exactly (Latin-1 maps byte `b` to code point `b`). -/
theorem C3_encoding_fallback (bs : List Nat) (h : utf8Decode bs = none) :
    decodeChain bs = bs ∧ asciiDecode bs = none ∧ utf8SigDecode bs = none ∧
    latin1Decode bs = some bs ∧
    ∀ n sz, read_file_content ⟨n, sz, .bytes bs⟩ = .text bs := by
  have ha := asciiDecode_none_of_utf8_none h
  have hs := utf8SigDecode_none_of_utf8_none h
  have hchain : decodeChain bs = bs := by
    unfold decodeChain
    rw [h, hs, ha]
    rfl
  exact ⟨hchain, ha, hs, rfl, fun n sz => by simp [read_file_content, hchain]⟩

/-- Witness for C3 at the Latin-1 byte `0xFF` (invalid as UTF-8). -/
theorem C3_encoding_fallback_witness :
    decodeChain [0xFF, 65] = [0xFF, 65] ∧
    read_file_content ⟨"n.dat", 2, .bytes [0xFF, 65]⟩ = .text [0xFF, 65] :=
  ⟨(C3_encoding_fallback [0xFF, 65] (by decide)).1,
   (C3_encoding_fallback [0xFF, 65] (by decide)).2.2.2.2 "n.dat" 2⟩

/-! ## Claim C1 -/

/-- C1: the claim says a file with an allow-listed extension (e.g. `.py`)
is always Included with a content block.  In `src/combine_files.py` this
fails: `combine_files` additionally requires membership in
`force_text_extensions = {.swift,.md,.txt,.json,.yaml,.yml}`, so a `.py`
file — which its own `is_binary` classifies as text — is skipped and
labelled "Binary file", and no block is written.  The
`src/src/combine_files.py` variant behaves as the claim says: the same
`.py` file is included even when its first bytes contain a null byte. -/
theorem C1_py_file_skipped_as_binary :
    procFile defaultExcludes 10 ⟨"a.py", 5, .bytes [0, 104, 105]⟩ = .skippedBinary ∧
    is_binary ⟨"a.py", 5, .bytes [0, 104, 105]⟩ = false ∧
    blocksSrc defaultExcludes 10 (.mk true [] [⟨"a.py", 5, .bytes [0, 104, 105]⟩]) = [] ∧
    procFileSS defaultExcludesSS 10 ⟨"a.py", 5, .bytes [0, 104, 105]⟩ =
      .included [0, 104, 105] ∧
    blocksSS defaultExcludesSS 10 (.mk true [] [⟨"a.py", 5, .bytes [0, 104, 105]⟩]) =
      [⟨[], "a.py", [0, 104, 105]⟩] := by
  decide

/-! ## Claim C2 -/

/-- C2 counterexample: a candidate file without an allow-listed extension
whose read fails (permission denied).  The sniffing read inside
`is_binary` fails, the file is classified binary, and under quiet mode
**no** notice at all is emitted — refuting "an error notice is emitted
regardless of quiet mode" for this read failure. -/
theorem C2_read_failure_silently_skipped :
    read_file_content ⟨"data.xyz", 1, .err "Permission denied"⟩ =
      .ioError "Failed to read: Permission denied" ∧
    procFile defaultExcludes 10 ⟨"data.xyz", 1, .err "Permission denied"⟩ =
      .skippedBinary ∧
    noticesOf true "data.xyz"
      (procFile defaultExcludes 10 ⟨"data.xyz", 1, .err "Permission denied"⟩) = [] := by
  decide

/-- C2 amended: in `src/combine_files.py`, a read failure on a candidate
file surfaces as a `readError` with a notice printed regardless of quiet
mode only when the file reaches the content read — extension `.swift` or
one of the force-text extensions.  For any other extension the failing
sniff read makes `is_binary` return `True`, and the file is reported as a
routine binary skip which quiet mode suppresses.  Either way the file
yields no block and the run continues. -/
theorem C2_read_failure_reporting (patterns : List String) (maxSizeMB : Nat)
    (f : FileEnt) (e : String) (hc : f.content = .err e)
    (hp : nameExcluded patterns f.name = false)
    (hs : ¬ f.size > maxSizeMB * 1024 * 1024) :
    (lowerStr (pySuffix f.name) = ".swift" ∨
        lowerStr (pySuffix f.name) ∈ [".md", ".txt", ".json", ".yaml", ".yml"] →
      procFile patterns maxSizeMB f = .readError ("Failed to read: " ++ e) ∧
      ∀ quiet, noticesOf quiet f.name (procFile patterns maxSizeMB f) =
        [.procError f.name ("Failed to read: " ++ e)]) ∧
    (lowerStr (pySuffix f.name) ≠ ".swift" ∧
        lowerStr (pySuffix f.name) ∉
          [".swift", ".md", ".txt", ".json", ".yaml", ".yml"] →
      procFile patterns maxSizeMB f = .skippedBinary ∧
      noticesOf true f.name (procFile patterns maxSizeMB f) = []) := by
  constructor
  · intro hext
    have hforce : lowerStr (pySuffix f.name) = ".swift" ∨
        (¬ is_binary f = true ∧
          lowerStr (pySuffix f.name) ∈
            [".swift", ".md", ".txt", ".json", ".yaml", ".yml"]) := by
      rcases hext with hsw | hmem
      · exact Or.inl hsw
      · refine Or.inr ⟨?_, by simpa using Or.inr hmem⟩
        have hcode : lowerStr (pySuffix f.name) ∈ codeExtensions := by
          simp only [List.mem_cons, List.not_mem_nil, or_false] at hmem
          rcases hmem with h | h | h | h | h <;> rw [h] <;> decide
        simp [is_binary, hcode]
    have hout : procFile patterns maxSizeMB f = .readError ("Failed to read: " ++ e) := by
      unfold procFile
      rw [hp]
      simp only [Bool.false_eq_true, if_false]
      rw [if_neg hs, if_pos hforce]
      simp [read_file_content, hc]
    exact ⟨hout, fun quiet => by rw [hout]; rfl⟩
  · intro ⟨hsw, hmem⟩
    have hbin : is_binary f = true ∨ ¬ is_binary f = true := em _
    have hout : procFile patterns maxSizeMB f = .skippedBinary := by
      unfold procFile
      rw [hp]
      simp only [Bool.false_eq_true, if_false]
      rw [if_neg hs, if_neg]
      push_neg
      exact ⟨hsw, fun _ => hmem⟩
    exact ⟨hout, by rw [hout]; rfl⟩

/-- Witness for C2 amended: a `.md` file whose read fails is reported
as an error even under quiet; a `.xyz` file whose read fails is silently
skipped under quiet. -/
theorem C2_read_failure_reporting_witness :
    (procFile defaultExcludes 10 ⟨"notes.md", 1, .err "EIO"⟩ =
        .readError ("Failed to read: " ++ "EIO") ∧
      ∀ quiet, noticesOf quiet "notes.md"
          (procFile defaultExcludes 10 ⟨"notes.md", 1, .err "EIO"⟩) =
        [.procError "notes.md" ("Failed to read: " ++ "EIO")]) ∧
    (procFile defaultExcludes 10 ⟨"blob.xyz", 1, .err "EIO"⟩ = .skippedBinary ∧
      noticesOf true "blob.xyz"
        (procFile defaultExcludes 10 ⟨"blob.xyz", 1, .err "EIO"⟩) = []) :=
  ⟨(C2_read_failure_reporting defaultExcludes 10 ⟨"notes.md", 1, .err "EIO"⟩ "EIO"
      rfl (by decide) (by decide)).1 (by right; decide),
   (C2_read_failure_reporting defaultExcludes 10 ⟨"blob.xyz", 1, .err "EIO"⟩ "EIO"
      rfl (by decide) (by decide)).2 (by constructor <;> decide)⟩

/-! ## Claim C8 -/

/-- C8: any file whose size strictly exceeds `max_size_mb * 1024 * 1024`
bytes is excluded as too large, whatever its content and extension, with
a "too large" notice when not quiet; an 11 MiB file is excluded under
`--max-size 10` and included under `--max-size 20`. -/
theorem C8_size_ceiling (patterns : List String) (maxSizeMB : Nat) (f : FileEnt)
    (hp : nameExcluded patterns f.name = false)
    (hs : f.size > maxSizeMB * 1024 * 1024) :
    (procFile patterns maxSizeMB f = .tooLarge ∧
      noticesOf false f.name (procFile patterns maxSizeMB f) =
        [.tooLargeSkip f.name]) ∧
    procFile defaultExcludes 10 ⟨"big.txt", 11 * 1024 * 1024, .bytes [104, 105]⟩ =
      .tooLarge ∧
    procFile defaultExcludes 20 ⟨"big.txt", 11 * 1024 * 1024, .bytes [104, 105]⟩ =
      .included [104, 105] := by
  refine ⟨?_, by decide, by decide⟩
  have hout : procFile patterns maxSizeMB f = .tooLarge := by
    unfold procFile
    rw [hp]
    simp only [Bool.false_eq_true, if_false]
    rw [if_pos hs]
  exact ⟨hout, by rw [hout]; rfl⟩

/-- Witness for C8 at a file one byte over the 10 MiB ceiling. -/
theorem C8_size_ceiling_witness :
    procFile defaultExcludes 10 ⟨"c.bin", 10485761, .bytes []⟩ = .tooLarge :=
  ((C8_size_ceiling defaultExcludes 10 ⟨"c.bin", 10485761, .bytes []⟩
      (by decide) (by decide)).1).1

/-! ## Supporting lemmas: the entry sort order -/

theorem strLeData_total : ∀ x y : List Char, strLeData x y = true ∨ strLeData y x = true := by
  intro x
  induction x with
  | nil => intro y; left; rfl
  | cons a as ih =>
    intro y
    cases y with
    | nil => right; rfl
    | cons b bs =>
      by_cases h1 : a.toNat < b.toNat
      · left; simp [strLeData, h1]
      · by_cases h2 : b.toNat < a.toNat
        · right; simp [strLeData, h2]
        · rcases ih bs with h | h
          · left; simp [strLeData, h1, h2, h]
          · right; simp [strLeData, h1, h2, h]

theorem strLeData_trans : ∀ x y z : List Char,
    strLeData x y = true → strLeData y z = true → strLeData x z = true := by
  intro x
  induction x with
  | nil => intro y z _ _; rfl
  | cons a as ih =>
    intro y z hxy hyz
    cases y with
    | nil => simp [strLeData] at hxy
    | cons b bs =>
      cases z with
      | nil => simp [strLeData] at hyz
      | cons c cs =>
        simp only [strLeData] at hxy hyz ⊢
        by_cases h1 : a.toNat < b.toNat
        · by_cases h2 : b.toNat < c.toNat
          · have h3 : a.toNat < c.toNat := by omega
            simp [h3]
          · by_cases h3 : c.toNat < b.toNat
            · rw [if_neg h2, if_pos h3] at hyz; cases hyz
            · have h4 : a.toNat < c.toNat := by omega
              simp [h4]
        · by_cases h4 : b.toNat < a.toNat
          · rw [if_neg h1, if_pos h4] at hxy; cases hxy
          · by_cases h2 : b.toNat < c.toNat
            · have h5 : a.toNat < c.toNat := by omega
              simp [h5]
            · by_cases h3 : c.toNat < b.toNat
              · rw [if_neg h2, if_pos h3] at hyz; cases hyz
              · have h5 : ¬ a.toNat < c.toNat := by omega
                have h6 : ¬ c.toNat < a.toNat := by omega
                rw [if_neg h1, if_neg h4] at hxy
                rw [if_neg h2, if_neg h3] at hyz
                rw [if_neg h5, if_neg h6]
                exact ih bs cs hxy hyz

instance : IsTotal Ent (fun a b => entLE a b = true) := by
  constructor
  intro a b
  cases ha : a.isFile <;> cases hb : b.isFile <;>
    simp [entLE, ha, hb] <;> apply strLeData_total

instance : IsTrans Ent (fun a b => entLE a b = true) := by
  constructor
  intro a b c hab hbc
  cases ha : a.isFile <;> cases hb : b.isFile <;> cases hc : c.isFile <;>
    simp [entLE, ha, hb, hc] at hab hbc ⊢ <;>
    exact strLeData_trans _ _ _ hab hbc

/-! ## Claim C4 -/

/-- The order the claim asserts: no directory entry appears after a file
entry (boolean form, so the counterexample is checkable by evaluation). -/
def dirsBeforeFilesB : List Ent → Bool
  | [] => true
  | e :: t => t.all (fun b => !(e.isFile && !b.isFile)) && dirsBeforeFilesB t

/-- The order the claim asserts: no directory entry appears after a file
entry. -/
def dirsBeforeFiles (l : List Ent) : Prop := dirsBeforeFilesB l = true

/-- C4 counterexample: a directory containing the subdirectory `a` and
the file `b`.  The sort key `(not is_file, name)` puts **files before
directories** (`False < True`), so the listing is `[file b, dir a]` and
the claimed "directories before files" order is violated. -/
theorem C4_dirs_before_files_false :
    ¬ dirsBeforeFiles
      (visEnts (.mk true [("a", .mk true [] [])] [⟨"b", 1, .bytes []⟩])) := by
  unfold dirsBeforeFiles
  decide

/-- C4 amended: the Tree Lister renders each directory's entries sorted
by the key `(not is_file, name)` — files before directories, then
alphabetically by name within each group — and omits exactly the entries
whose name begins with `'.'`. -/
theorem C4_tree_listing_order (d : Dir) :
    List.Sorted (fun a b => entLE a b = true) (visEnts d) ∧
    (∀ e ∈ visEnts d, pyStartsWith e.name "." = false) ∧
    (∀ e ∈ rawEnts d, pyStartsWith e.name "." = false → e ∈ visEnts d) := by
  refine ⟨?_, ?_, ?_⟩
  · exact List.Pairwise.sublist (List.filter_sublist _)
      (List.sorted_insertionSort _ (rawEnts d))
  · intro e he
    have h := (List.mem_filter.mp he).2
    simpa using h
  · intro e he hvis
    refine List.mem_filter.mpr ⟨?_, by simp [hvis]⟩
    exact (List.mem_insertionSort _).mpr he

/-- Witness for C4 amended: the non-hidden file `b` of the concrete
directory appears in the listing. -/
theorem C4_tree_listing_order_witness :
    Ent.file "b" ∈ visEnts (.mk true [("a", .mk true [] [])] [⟨"b", 1, .bytes []⟩]) :=
  (C4_tree_listing_order _).2.2 (Ent.file "b")
    (by simp [rawEnts, Dir.subdirs, Dir.files]) (by decide)

/-! ## Supporting lemmas: the walk -/

/-- Structural induction for `Dir` through the nested subdirectory list. -/
theorem Dir.inductionOn {P : Dir → Prop}
    (h : ∀ rd subs files, (∀ p ∈ subs, P p.2) → P (.mk rd subs files)) :
    ∀ d, P d
  | .mk rd subs files => h rd subs files (fun p hp => Dir.inductionOn h p.2)
termination_by d => sizeOf d
decreasing_by
  have h1 := List.sizeOf_lt_of_mem hp
  cases p with
  | mk a b =>
    simp only [Prod.mk.sizeOf_spec] at h1
    simp only [Dir.mk.sizeOf_spec]
    omega

/-- A visited file inside `walkSubs` comes from a non-excluded
subdirectory entry. -/
theorem mem_walkSubs {ps : List String} {subs : List (String × Dir)}
    {rel : List String} {p : List String × FileEnt}
    (hp : p ∈ walkSubs ps subs rel) :
    ∃ nm sub, (nm, sub) ∈ subs ∧ nameExcluded ps nm = false ∧
      p ∈ walkFiles ps sub (rel ++ [nm]) := by
  induction subs with
  | nil => simp [walkSubs] at hp
  | cons q t ih =>
    cases q with
    | mk nm sub =>
      rw [walkSubs] at hp
      rcases List.mem_append.mp hp with h | h
      · by_cases hex : nameExcluded ps nm = true
        · rw [if_pos hex] at h
          simp at h
        · rw [if_neg hex] at h
          exact ⟨nm, sub, List.mem_cons_self _ _, by simpa using hex, h⟩
      · obtain ⟨nm', sub', hmem, hex, hw⟩ := ih h
        exact ⟨nm', sub', List.mem_cons_of_mem _ hmem, hex, hw⟩

/-- Every visited file's directory path extends `rel` only with
non-excluded directory names: the pruning of line 69 keeps excluded
directory names out of every visited path. -/
theorem mem_walkFiles_clean (ps : List String) :
    ∀ d : Dir, ∀ (rel : List String) (p : List String × FileEnt),
      p ∈ walkFiles ps d rel →
      ∃ suf, p.1 = rel ++ suf ∧ ∀ c ∈ suf, nameExcluded ps c = false := by
  refine Dir.inductionOn ?_
  intro rd subs files ih rel p hp
  rw [walkFiles] at hp
  by_cases hrd : rd = true
  · rw [if_pos hrd] at hp
    rcases List.mem_append.mp hp with h | h
    · rcases List.mem_map.mp h with ⟨f, _, hf⟩
      refine ⟨[], ?_, by simp⟩
      rw [← hf]
      simp
    · obtain ⟨nm, sub, hmem, hex, hw⟩ := mem_walkSubs h
      obtain ⟨suf, hrel, hclean⟩ := ih (nm, sub) hmem (rel ++ [nm]) p hw
      refine ⟨nm :: suf, by rw [hrel]; simp, ?_⟩
      intro c hc
      rcases List.mem_cons.mp hc with hc | hc
      · subst hc; exact hex
      · exact hclean c hc
  · rw [if_neg hrd] at hp
    simp at hp

/-- An included file passed the name filter of line 72. -/
theorem procFile_included_name {ps : List String} {mb : Nat} {f : FileEnt}
    {t : List Nat} (h : procFile ps mb f = .included t) :
    nameExcluded ps f.name = false := by
  by_cases hx : nameExcluded ps f.name = true
  · simp only [procFile, hx, if_true] at h
    cases h
  · simpa using hx

/-! ## Claim C7 -/

/-- C7: if some configured pattern occurs as a substring of the name `n`,
then no content block of the output has file name `n`, and no content
block's directory path contains `n` — matching directories are pruned
with their whole subtree. -/
theorem C7_exclusion_patterns (ps : List String) (mb : Nat) (d : Dir)
    (pat n : String) (hpat : pat ∈ ps) (hmatch : pyIn pat n = true)
    (b : Block) (hb : b ∈ blocksSrc ps mb d) :
    b.fname ≠ n ∧ n ∉ b.dirs := by
  have hexn : nameExcluded ps n = true := by
    unfold nameExcluded
    rw [List.any_eq_true]
    exact ⟨pat, hpat, hmatch⟩
  unfold blocksSrc at hb
  rcases List.mem_filterMap.mp hb with ⟨p, hpw, hmap⟩
  obtain ⟨suf, hrel, hclean⟩ := mem_walkFiles_clean ps d [] p hpw
  cases hproc : procFile ps mb p.2 with
  | included t =>
    rw [hproc] at hmap
    have hb2 : b = ⟨p.1, p.2.name, t⟩ := by
      simpa using hmap.symm
    subst hb2
    constructor
    · intro heq
      have hok : nameExcluded ps p.2.name = false := procFile_included_name hproc
      simp only at heq
      rw [heq] at hok
      rw [hexn] at hok
      cases hok
    · intro hmem
      simp only at hmem
      rw [hrel] at hmem
      simp only [List.nil_append] at hmem
      have := hclean n hmem
      rw [hexn] at this
      cases this
  | skippedPattern => rw [hproc] at hmap; cases hmap
  | tooLarge => rw [hproc] at hmap; cases hmap
  | readError m => rw [hproc] at hmap; cases hmap
  | skippedBinary => rw [hproc] at hmap; cases hmap

/-- Witness for C7: with pattern `.git`, the block for `a.txt` in a
concrete tree is clean of the pattern. -/
theorem C7_exclusion_patterns_witness :
    (⟨[], "a.txt", [104]⟩ : Block).fname ≠ ".git" ∧
      ".git" ∉ (⟨[], "a.txt", [104]⟩ : Block).dirs :=
  C7_exclusion_patterns [".git"] 10
    (.mk true [(".git", .mk true [] [⟨"cfg", 1, .bytes [65]⟩])] [⟨"a.txt", 1, .bytes [104]⟩])
    ".git" ".git" (by decide) (by decide) ⟨[], "a.txt", [104]⟩ (by decide)

/-! ## Claim C10 -/

/-- The name-filtered visited files of one directory are at most the
pre-scan count: the pruned walk visits a subset of the pre-scanned
tree. -/
theorem walk_filter_le_count (ps : List String) :
    ∀ d : Dir, ∀ rel : List String,
      ((walkFiles ps d rel).filter (fun p => !nameExcluded ps p.2.name)).length ≤
        countFiles ps d := by
  refine Dir.inductionOn ?_
  intro rd subs files ih rel
  rw [walkFiles, countFiles]
  by_cases hrd : rd = true
  · rw [if_pos hrd, if_pos hrd]
    rw [List.filter_append, List.length_append]
    have h1 : (((sortFiles files).map (fun f => (rel, f))).filter
        (fun p => !nameExcluded ps p.2.name)).length =
        (files.filter (fun f => !nameExcluded ps f.name)).length := by
      rw [← List.countP_eq_length_filter, ← List.countP_eq_length_filter]
      rw [List.countP_map]
      exact (List.perm_insertionSort _ files).countP_eq _
    have h2 : ((walkSubs ps subs rel).filter
        (fun p => !nameExcluded ps p.2.name)).length ≤ countSubs ps subs := by
      clear h1
      induction subs with
      | nil => simp [walkSubs, countSubs]
      | cons q t iht =>
        cases q with
        | mk nm sub =>
          rw [walkSubs, countSubs]
          rw [List.filter_append, List.length_append]
          have ha : ((if nameExcluded ps nm = true then []
              else walkFiles ps sub (rel ++ [nm])).filter
                (fun p => !nameExcluded ps p.2.name)).length ≤ countFiles ps sub := by
            by_cases hex : nameExcluded ps nm = true
            · simp [hex]
            · rw [if_neg hex]
              exact ih (nm, sub) (List.mem_cons_self _ _) (rel ++ [nm])
          have hb := iht (fun p hp => ih p (List.mem_cons_of_mem _ hp))
          omega
    omega
  · rw [if_neg hrd, if_neg hrd]
    simp

/-- C10: the progress computation never divides by zero.  The `k`-th
progress tick (0-based) prints `processed_files = k + 1`, and every file
that reaches the tick passed the name filter and lies in a walked
(non-pruned, readable) directory, which the pre-scan also counted; so at
every print `1 ≤ processed_files ≤ total_files` and `total_files ≠ 0`. -/
theorem C10_progress_bounds (ps : List String) (d : Dir) (k : Nat)
    (hk : k < (processedSrc ps d).length) :
    1 ≤ k + 1 ∧ k + 1 ≤ countFiles ps d ∧ countFiles ps d ≠ 0 := by
  have h := walk_filter_le_count ps d []
  have h2 : (processedSrc ps d).length ≤ countFiles ps d := h
  omega

/-- Witness for C10 at a tree with one countable file. -/
theorem C10_progress_bounds_witness :
    1 ≤ 0 + 1 ∧
      0 + 1 ≤ countFiles [".git"] (.mk true [] [⟨"a.txt", 1, .bytes [104]⟩]) ∧
      countFiles [".git"] (.mk true [] [⟨"a.txt", 1, .bytes [104]⟩]) ≠ 0 :=
  C10_progress_bounds [".git"] (.mk true [] [⟨"a.txt", 1, .bytes [104]⟩]) 0 (by decide)

/-! ## Claim C5 -/

/-- C5 counterexample: calling the library combine
(`FileCombiner.combine_files`) directly with a missing input directory.
With the tree suppressed it returns success and creates the (empty)
output file; with the tree enabled it returns failure but the output
file has still been created — both contradict "fails ... before any
output is produced, and no output file is created" for "every call of
combine".  The precondition checks live in the CLI `main`, not in the
combine function. -/
theorem C5_combine_without_validation :
    (combineLib true [] 10 true "T" .missing).success = true ∧
    (combineLib true [] 10 true "T" .missing).outputCreated = true ∧
    (combineLib true [] 10 false "T" .missing).success = false ∧
    (combineLib true [] 10 false "T" .missing).outputCreated = true := by
  decide

/-- C5 amended: every CLI invocation (`main`) with an input path that is
missing, not a directory, or unreadable exits with a descriptive error
message before the combiner is invoked, so no output file is created;
a direct call of the library combine performs no such checks. -/
theorem C5_cli_validation (ps : List String) (mb : Nat) (nt : Bool) (ts : String)
    (st : InState) (h : st = .missing ∨ st = .notDir ∨ st = .noPerm) :
    ∃ msg, mainSS ps mb nt ts st = .exitError msg := by
  rcases h with h | h | h <;> subst h <;> exact ⟨_, rfl⟩

/-- Witness for C5 amended at a missing input directory. -/
theorem C5_cli_validation_witness :
    ∃ msg, mainSS [] 10 false "T" .missing = .exitError msg :=
  C5_cli_validation [] 10 false "T" .missing (Or.inl rfl)

/-! ## Claim C6 -/

/-- C6 counterexample: an input tree whose top-level directory is
readable and whose output stream opens fine, but which contains an
unreadable (non-hidden) subdirectory.  With the tree enabled,
`get_file_tree` raises inside the `try`, and `combine_files` returns
failure — a failure not caused by the output stream or by reading the
top-level directory. -/
theorem C6_failure_beyond_toplevel :
    (combineLib true [] 10 false "T"
      (.present (.mk true [("sub", .mk false [] [])] []))).success = false ∧
    (Dir.mk true [("sub", .mk false [] [])] []).readable = true := by
  decide

/-- C6 amended: `FileCombiner.combine_files` returns success exactly when
the output stream setup succeeds and either the tree listing is disabled
or the tree generation succeeds (input present, every visible directory
readable).  In particular per-file skips, read errors and decode errors
never affect the result — the right-hand side does not mention file
contents — but an unreadable subdirectory fails the whole run when the
tree is enabled, which goes beyond "output stream or top-level
directory". -/
theorem C6_lib_success_iff (oOk : Bool) (ps : List String) (mb : Nat) (nt : Bool)
    (ts : String) (st : InState) :
    (combineLib oOk ps mb nt ts st).success = true ↔
      (oOk = true ∧ (nt = true ∨ ∃ d, st = .present d ∧ dirTreeOk d = true)) := by
  cases oOk
  · simp [combineLib]
  · cases nt
    · cases st with
      | present d =>
        by_cases ht : dirTreeOk d = true
        · simp [combineLib, ht]
        · simp [combineLib, ht]
      | missing => simp [combineLib]
      | notDir => simp [combineLib]
      | noPerm => simp [combineLib]
    · simp [combineLib]

/-! ## Claim C9 -/

/-- Everything up to and including the first newline removed. -/
def dropThroughNl : List Char → List Char
  | [] => []
  | c :: t => if c = '\n' then t else dropThroughNl t

/-- The output minus its first line (the tree generation-timestamp
header when the tree is enabled). -/
def dropFirstLine (s : String) : String := ⟨dropThroughNl s.data⟩

def dropFirstLineRun : RunOut → RunOut
  | .ok s => .ok (dropFirstLine s)
  | .crashed => .crashed

/-- Tail of the Python `sep.join` starting from the second element. -/
def pyJoinRest (sep : String) : List String → String
  | [] => ""
  | b :: rest => sep ++ pyJoin sep (b :: rest)

theorem pyJoin_cons (sep a : String) (l : List String) :
    pyJoin sep (a :: l) = a ++ pyJoinRest sep l := by
  cases l with
  | nil =>
    show a = a ++ ""
    exact (String.append_empty a).symm
  | cons b rest =>
    show a ++ sep ++ pyJoin sep (b :: rest) = a ++ (sep ++ pyJoin sep (b :: rest))
    exact String.append_assoc a sep (pyJoin sep (b :: rest))

theorem dropThroughNl_append : ∀ h : List Char, '\n' ∉ h →
    ∀ t, dropThroughNl (h ++ '\n' :: t) = t := by
  intro h
  induction h with
  | nil => intro _ t; simp [dropThroughNl]
  | cons c cs ih =>
    intro hn t
    have hc : ¬ c = '\n' := fun he => hn (by rw [he]; exact List.mem_cons_self _ _)
    simp only [List.cons_append, dropThroughNl, if_neg hc]
    exact ih (fun hm => hn (List.mem_cons_of_mem _ hm)) t

/-- Dropping the first line of the output removes exactly the tree
header with its timestamp. -/
theorem dropFirstLine_header (ts rest : String) (hts : '\n' ∉ ts.data) :
    dropFirstLine ("# File Tree - Generated on " ++ (ts ++ ("\n" ++ rest))) = rest := by
  obtain ⟨rdata⟩ := rest
  show (⟨dropThroughNl ("# File Tree - Generated on " ++ (ts ++ ("\n" ++ ⟨rdata⟩))).data⟩ :
    String) = ⟨rdata⟩
  have hdata : ("# File Tree - Generated on " ++ (ts ++ ("\n" ++ (⟨rdata⟩ : String)))).data =
      ("# File Tree - Generated on ".data ++ ts.data) ++ '\n' :: rdata := by
    simp [String.data_append]
  rw [hdata]
  have hmem : '\n' ∉ "# File Tree - Generated on ".data ++ ts.data := by
    intro hmem
    rcases List.mem_append.mp hmem with h | h
    · revert h; decide
    · exact hts h
  exact congrArg String.mk (dropThroughNl_append _ hmem rdata)

/-- C9: two runs of `combine_files` on the same (unchanged) tree with the
same arguments differ at most in the tree header's timestamp: with
`--no-tree` the outputs are byte-identical, and with the tree enabled
they are identical once the generation-timestamp line is dropped from
each (the genuine `datetime.now()` string contains no newline). -/
theorem C9_two_runs (ps : List String) (mb : Nat) (d : Dir) (ts₁ ts₂ : String)
    (h₁ : '\n' ∉ ts₁.data) (h₂ : '\n' ∉ ts₂.data) :
    combineSrcOut ps mb true ts₁ d = combineSrcOut ps mb true ts₂ d ∧
    dropFirstLineRun (combineSrcOut ps mb false ts₁ d) =
      dropFirstLineRun (combineSrcOut ps mb false ts₂ d) := by
  constructor
  · rfl
  · unfold combineSrcOut
    by_cases ht : dirTreeOk d = true
    · simp only [Bool.false_eq_true, if_false, ht, if_true]
      show RunOut.ok _ = RunOut.ok _
      congr 1
      unfold get_file_tree
      rw [pyJoin_cons, pyJoin_cons]
      simp only [String.append_assoc]
      rw [dropFirstLine_header _ _ h₁, dropFirstLine_header _ _ h₂]
    · simp only [Bool.false_eq_true, if_false, ht]
  
/-- Witness for C9 with two concrete timestamps on a concrete tree. -/
theorem C9_two_runs_witness :
    combineSrcOut [] 10 true "2025-01-01 00:00:00" (.mk true [] []) =
      combineSrcOut [] 10 true "2025-01-02 03:04:05" (.mk true [] []) ∧
    dropFirstLineRun (combineSrcOut [] 10 false "2025-01-01 00:00:00" (.mk true [] [])) =
      dropFirstLineRun (combineSrcOut [] 10 false "2025-01-02 03:04:05" (.mk true [] [])) :=
  C9_two_runs [] 10 (.mk true [] []) "2025-01-01 00:00:00" "2025-01-02 03:04:05"
    (by decide) (by decide)
